import Mathlib

/-!
Verification development for the podcast contact-discovery pipeline
(`scripts/scrapers/contact_finder.py` and `scripts/scrapers/podcast_discovery.py`).

Python strings are embedded as `List Char`, floats (`confidence`) as `ℚ`,
`None`-able values as `Option`, and the network page fetcher as an abstract
function `Str → Option Page` where `none` models a fetch failure, a raised
exception, or a non-200 HTTP status.  HTML parsing (BeautifulSoup) and the
regex scan over the raw document are external collaborators: a fetched `Page`
is given by the anchors whose href starts with `mailto:` (case-insensitively)
together with their visible text, and by the list of email-shaped tokens the
free-text regex finds in the raw HTML, in document order.
-/

namespace Podcast

/-- Python `str` is modelled as a list of characters. -/
abbrev Str := List Char

/-- Lower-case a string character by character; models Python `str.lower()`
on the ASCII inputs this pipeline handles. -/
def lowerStr (s : Str) : Str := s.map Char.toLower

/-- Does `s` start with the pattern `p`?  (Helper for substring search.) -/
def startsWithL : Str → Str → Bool
  | [], _ => true
  | _ :: _, [] => false
  | a :: ps, b :: ss => a = b && startsWithL ps ss

/-- Does the pattern `p` occur as a contiguous substring of `s`?  Models the
Python expression `p in s` on strings. -/
def containsSub (s p : Str) : Bool :=
  startsWithL p s ||
    match s with
    | [] => false
    | _ :: rest => containsSub rest p

/-- Strip leading and trailing whitespace; models Python `str.strip()`. -/
def stripWs (s : Str) : Str :=
  ((s.dropWhile Char.isWhitespace).reverse.dropWhile Char.isWhitespace).reverse

/-- Keep the part of `s` before the first `'?'`; models `s.split('?')[0]`. -/
def beforeQuery (s : Str) : Str := s.takeWhile (fun c => c ≠ '?')

/-- Remove every (non-overlapping, left-to-right) occurrence of the literal
`"mailto:"`; models `href.replace('mailto:', '')` (case-sensitive). -/
def removeMailto : Str → Str
  | 'm' :: 'a' :: 'i' :: 'l' :: 't' :: 'o' :: ':' :: rest => removeMailto rest
  | c :: rest => c :: removeMailto rest
  | [] => []

/-- Extraction of the address from a mailto href:
`href.replace('mailto:', '').split('?')[0].strip()`. -/
def emailFromHref (href : Str) : Str := stripWs (beforeQuery (removeMailto href))

/-! ### Data model: `ContactResult` (contact_finder.py lines 21–27) -/

/-- One verified contact with source, mirroring the `ContactResult` dataclass:
`email`, mandatory `source_url`, `contact_type` ∈ {booking, host, producer,
general}, `confidence` ∈ [0,1]. -/
structure ContactResult where
  email : Str
  source_url : Str
  contact_type : Str
  confidence : ℚ
deriving DecidableEq

/-! ### EmailValidator: `ContactFinder._is_valid_email` (lines 184–208) -/

/-- The structural deny-list `skip_patterns` of `_is_valid_email`. -/
def skip_patterns : List Str :=
  ["noreply", "no-reply", "donotreply", "mailer-daemon",
   "example.com", "example.org", "test.com",
   ".png", ".jpg", ".gif", ".svg",
   "wixpress", "sentry.io", "cloudflare",
   "privacy@", "abuse@", "postmaster@", "webmaster@"].map String.toList

/-- Characters allowed in the local part by the format regex
`[a-zA-Z0-9._%+-]`. -/
def isLocalChar (c : Char) : Bool :=
  c.isAlpha || c.isDigit || c = '.' || c = '_' || c = '%' || c = '+' || c = '-'

/-- Characters allowed in the domain part by the format regex
`[a-zA-Z0-9.-]`. -/
def isDomainChar (c : Char) : Bool :=
  c.isAlpha || c.isDigit || c = '.' || c = '-'

/-- Split a list at the first occurrence of `c`, returning the parts before
and after it. -/
def splitFirst (c : Char) : Str → Option (Str × Str)
  | [] => none
  | x :: xs =>
    if x = c then some ([], xs)
    else (splitFirst c xs).map (fun pr => (x :: pr.1, pr.2))

/-- Matching of the anchored format regex
`^[a-zA-Z0-9._%+-]+@[a-zA-Z0-9.-]+\.[a-zA-Z]{2,}$` from `_is_valid_email`.
Since neither character class admits `'@'`, a match forces the split at the
first `'@'`; since the trailing `[a-zA-Z]{2,}` admits no dot and is anchored
at the end, the explicit `\.` of the pattern is the last dot of the domain. -/
def emailFormatOk (email : Str) : Bool :=
  match splitFirst '@' email with
  | none => false
  | some (loc, dom) =>
    let revDom := dom.reverse
    let tld := revDom.takeWhile (fun c => c ≠ '.')
    loc ≠ [] && loc.all isLocalChar &&
    dom.all isDomainChar && dom.contains '.' &&
    2 ≤ tld.length && tld.all Char.isAlpha &&
    revDom.drop (tld.length + 1) ≠ []

/-- Transcription of `ContactFinder._is_valid_email`: reject empty or
`'@'`-free strings, then any string whose lower-cased form contains a
deny-list token, then anything failing the format regex. -/
def is_valid_email (email : Str) : Bool :=
  if email = [] || !(email.contains '@') then false
  else
    let el := lowerStr email
    if skip_patterns.any (fun p => containsSub el p) then false
    else emailFormatOk email

/-! ### ContactClassifier: `ContactFinder._classify_email` (lines 210–228) -/

/-- The `booking_patterns` keyword list (all patterns are literal strings, so
`re.search` is substring containment). -/
def booking_patterns : List Str :=
  ["booking", "guest", "podcast", "media", "inquir", "press", "interview"].map
    String.toList

/-- The `host_patterns` list; each regex `@domain\.tld` is a literal substring
after unescaping. -/
def host_patterns : List Str :=
  ["@gmail.com", "@yahoo.com", "@outlook.com", "@icloud.com", "@me.com"].map
    String.toList

/-- The combined classification text `f"{email} {context}".lower()`. -/
def combinedOf (email context : Str) : Str := lowerStr (email ++ [' '] ++ context)

/-- Booking test of `_classify_email`: some booking pattern occurs in the
combined text. -/
def bookingCond (combined : Str) : Bool :=
  booking_patterns.any (fun p => containsSub combined p)

/-- Host test of `_classify_email`: some webmail-domain pattern occurs in the
lower-cased email. -/
def hostCond (email : Str) : Bool :=
  host_patterns.any (fun p => containsSub (lowerStr email) p)

/-- Producer test of `_classify_email`. -/
def producerCond (combined : Str) : Bool :=
  containsSub combined "producer".toList || containsSub combined "production".toList

/-- Transcription of `ContactFinder._classify_email`. -/
def classify_email (email context : Str) : Str :=
  let combined := combinedOf email context
  if bookingCond combined then "booking".toList
  else if hostCond email then "host".toList
  else if producerCond combined then "producer".toList
  else "general".toList

/-! ### ContactRanker: `ContactFinder._rank_contacts` (lines 230–253) -/

/-- One step of the dedupe dict `seen[email] = contact`: Python dicts keep
insertion order and updating an existing key keeps its position, so `seen` is
an association list in which an existing entry for the email is replaced in
place exactly when the new confidence is strictly higher, and a new email is
appended at the end. -/
def updateSeen : List ContactResult → ContactResult → List ContactResult
  | [], c => [c]
  | x :: xs, c =>
    if x.email = c.email then
      if c.confidence > x.confidence then c :: xs else x :: xs
    else x :: updateSeen xs c

/-- The dedupe loop of `_rank_contacts`: fold `updateSeen` over the input;
the result is `list(seen.values())` in insertion order. -/
def dedupeContacts (contacts : List ContactResult) : List ContactResult :=
  contacts.foldl updateSeen []

/-- The `type_priority` dict of `_rank_contacts`, with the `.get(_, 99)`
default. -/
def type_priority (t : Str) : Nat :=
  if t = "booking".toList then 0
  else if t = "host".toList then 1
  else if t = "producer".toList then 2
  else if t = "general".toList then 3
  else 99

/-- Comparison corresponding to the stable ascending sort on the key
`(type_priority[contact_type], -confidence)`. -/
def rankLE (a b : ContactResult) : Bool :=
  type_priority a.contact_type < type_priority b.contact_type ||
    (type_priority a.contact_type = type_priority b.contact_type &&
      b.confidence ≤ a.confidence)

/-- Transcription of `ContactFinder._rank_contacts`: dedupe keeping the
strictly-highest-confidence instance per email, then sort ascending by the
key `(type_priority, -confidence)`.  Python `list.sort` is a stable sort, so
it is modelled by the stable structural insertion sort over the key
comparison `rankLE`. -/
def rank_contacts (contacts : List ContactResult) : List ContactResult :=
  (dedupeContacts contacts).insertionSort (fun a b => rankLE a b = true)

/-! ### Page scraping: `ContactFinder._scrape_page_for_emails` (lines 119–167) -/

/-- One anchor found by `soup.find_all('a', href=re.compile(r'^mailto:', re.I))`:
its `href` attribute and its visible text `link.get_text()`. -/
structure MailtoLink where
  href : Str
  text : Str
deriving DecidableEq

/-- Abstraction of a successfully fetched page (status 200): the mailto
anchors BeautifulSoup finds, in document order, and the email-shaped tokens
`email_pattern.findall(html)` returns from the raw HTML, in document order. -/
structure Page where
  mailtos : List MailtoLink
  textEmails : List Str
deriving DecidableEq

/-- The page fetcher: `none` models a fetch failure, an exception, or a
non-200 status. -/
def Fetch := Str → Option Page

/-- One iteration of the mailto loop of `_scrape_page_for_emails`: a
candidate is appended when the extracted address validates, with the
lower-cased email, the fetched page URL as `source_url`, the classified type
(context = anchor text), and confidence 0.9 for booking else 0.7. -/
def mailtoStep (url : Str) (acc : List ContactResult) (link : MailtoLink) :
    List ContactResult :=
  let email := emailFromHref link.href
  if is_valid_email email then
    let t := classify_email email link.text
    acc ++ [{ email := lowerStr email, source_url := url, contact_type := t,
              confidence := if t = "booking".toList then mkRat 9 10 else mkRat 7 10 }]
  else acc

/-- The mailto loop of `_scrape_page_for_emails`. -/
def scrapeMailtos (url : Str) (links : List MailtoLink) : List ContactResult :=
  links.foldl (mailtoStep url) []

/-- One iteration of the free-text loop of `_scrape_page_for_emails`: a
candidate is appended when the token validates and its lower-cased form is
not already present in the accumulated list, with empty context and
confidence 0.6. -/
def textStep (url : Str) (acc : List ContactResult) (email : Str) :
    List ContactResult :=
  if is_valid_email email &&
      !(acc.any (fun c => c.email = lowerStr email)) then
    acc ++ [{ email := lowerStr email, source_url := url,
              contact_type := classify_email email [],
              confidence := mkRat 6 10 }]
  else acc

/-- The free-text loop of `_scrape_page_for_emails`, continuing from the
mailto candidates. -/
def scrapeText (url : Str) (tokens : List Str) (acc0 : List ContactResult) :
    List ContactResult :=
  tokens.foldl (textStep url) acc0

/-- Transcription of `ContactFinder._scrape_page_for_emails`: a failed fetch
yields `[]`; a fetched page yields the mailto candidates followed by the
free-text candidates. -/
def scrape_page_for_emails (fetch : Fetch) (url : Str) : List ContactResult :=
  match fetch url with
  | none => []
  | some page => scrapeText url page.textEmails (scrapeMailtos url page.mailtos)

/-! ### Site scan and orchestration: `_scan_website`, `_check_directories`,
`find_contacts` (lines 62–117 and 169–182) -/

/-- The fixed ordered path list `paths_to_check` of `_scan_website`. -/
def paths_to_check : List Str :=
  ["/contact", "/contact-us", "/be-a-guest", "/guest", "/podcast",
   "/about", "/media", "/press", "/booking", ""].map String.toList

/-- Strip trailing `'/'` characters; models `base_url.rstrip('/')`. -/
def rstripSlash (s : Str) : Str := (s.reverse.dropWhile (fun c => c = '/')).reverse

/-- The URL probed for a given path: `f"{base_url.rstrip('/')}{path}"`. -/
def pageUrl (base path : Str) : Str := rstripSlash base ++ path

/-- Transcription of `ContactFinder._scan_website`: scrape every path in
order and concatenate the per-page candidate lists. -/
def scan_website (fetch : Fetch) (base : Str) : List ContactResult :=
  (paths_to_check.map (fun p => scrape_page_for_emails fetch (pageUrl base p))).flatten

/-- Transcription of `ContactFinder._check_directories`: the body builds a
directory list but never scrapes it, so the returned `contacts` list is
always empty. -/
def check_directories (podcast_name : Str) : List ContactResult := []

/-- Transcription of `ContactFinder.find_contacts`: scan the website when
`website_url` is truthy (present and non-empty), extend with the directory
results, rank, and return the first two entries as (primary, backup). -/
def find_contacts (fetch : Fetch) (website_url : Option Str)
    (podcast_name : Str) : Option ContactResult × Option ContactResult :=
  let website_contacts :=
    match website_url with
    | some w => if w ≠ [] then scan_website fetch w else []
    | none => []
  let all_contacts := website_contacts ++ check_directories podcast_name
  let ranked := rank_contacts all_contacts
  (ranked[0]?, ranked[1]?)

/-! ### Dedupe key: `PodcastDiscoveryEngine._generate_dedupe_key`
(podcast_discovery.py lines 80–100) -/

/-- Search semantics of `re.search(r'/id(\d+)', url)`: the captured group of
the leftmost match, i.e. the maximal digit run following the first occurrence
of `"/id"` that is immediately followed by a digit. -/
def searchAppleId : Str → Option Str
  | [] => none
  | c :: rest =>
    if startsWithL "/id".toList (c :: rest) &&
        (match rest.drop 2 with
         | d :: _ => d.isDigit
         | [] => false) then
      some ((rest.drop 2).takeWhile Char.isDigit)
    else searchAppleId rest

/-- Search semantics of `re.search(r'/show/([a-zA-Z0-9]+)', url)`: the
captured group of the leftmost match. -/
def searchSpotifyId : Str → Option Str
  | [] => none
  | c :: rest =>
    if startsWithL "/show/".toList (c :: rest) &&
        (match rest.drop 5 with
         | d :: _ => d.isAlphanum
         | [] => false) then
      some ((rest.drop 5).takeWhile Char.isAlphanum)
    else searchSpotifyId rest

/-- Characters allowed in a URL scheme by `urllib.parse`
(`letters ++ digits ++ "+-."`). -/
def isSchemeChar (c : Char) : Bool :=
  c.isAlpha || c.isDigit || c = '+' || c = '-' || c = '.'

/-- Strip a leading `scheme:` as `urllib.parse.urlsplit` does: the part
before the first `':'` is removed when it is non-empty, starts with an ASCII
letter and consists of scheme characters. -/
def stripScheme (url : Str) : Str :=
  match splitFirst ':' url with
  | none => url
  | some (pre, post) =>
    match pre with
    | [] => url
    | c0 :: _ => if c0.isAlpha && pre.all isSchemeChar then post else url

/-- Network-location component of `urllib.parse.urlparse(url)`: after
stripping the scheme, a netloc is present exactly when the remainder starts
with `"//"`, and extends to the next `'/'`, `'?'` or `'#'`. -/
def urlNetloc (url : Str) : Str :=
  let rest := stripScheme url
  if startsWithL "//".toList rest then
    (rest.drop 2).takeWhile (fun c => c ≠ '/' && c ≠ '?' && c ≠ '#')
  else []

/-- Name normalization `re.sub(r'[^a-z0-9]', '', show_name.lower())`: keep
only lowercase ASCII letters and digits of the lower-cased name. -/
def normalizeName (show_name : Str) : Str :=
  (lowerStr show_name).filter (fun c => ('a' ≤ c && c ≤ 'z') || c.isDigit)

/-- Transcription of `PodcastDiscoveryEngine._generate_dedupe_key`.  The MD5
hex digest of `hashlib` is an external collaborator, passed in as `md5hex`;
the fallback key is its first 12 characters prefixed `"hash:"`. -/
def generate_dedupe_key (md5hex : Str → Str) (url show_name : Str) : Str :=
  match searchAppleId url with
  | some i => "apple:".toList ++ i
  | none =>
    match searchSpotifyId url with
    | some i => "spotify:".toList ++ i
    | none =>
      if urlNetloc url ≠ [] then
        "web:".toList ++ urlNetloc url ++ "|".toList ++ normalizeName show_name
      else
        "hash:".toList ++ (md5hex (url ++ show_name)).take 12

/-! ### Enrichment: `PodcastDiscoveryEngine.enrich_podcast`
(podcast_discovery.py lines 366–385), over the `PodcastDiscoveryResult`
dataclass (lines 24–45). -/

/-- The `PodcastDiscoveryResult` dataclass. -/
structure PodcastDiscoveryResult where
  show_name : Str
  host_name : Option Str
  primary_platform_url : Str
  website_url : Option Str
  apple_podcast_url : Option Str
  spotify_url : Option Str
  show_description : Option Str
  recent_episode_titles : List Str
  recent_guests : List Str
  primary_email : Option Str
  primary_email_source_url : Option Str
  backup_email : Option Str
  backup_email_source_url : Option Str
  discovery_source : Str
  risk_signals : List Str
  dedupe_key : Str
deriving DecidableEq

/-- One entry of the list `_find_emails` returns: the dicts
`{"email": ..., "source": ...}` always carry both keys. -/
structure EmailEntry where
  email : Str
  source : Str
deriving DecidableEq

/-- Python truthiness of an optional string: `None` and `""` are falsy. -/
def truthyOpt : Option Str → Bool
  | none => false
  | some s => s ≠ []

/-- Transcription of `PodcastDiscoveryEngine.enrich_podcast`.  The two
network helpers `_find_website` and `_find_emails` are abstracted as the
function arguments `findWebsite` and `findEmails`.  When `website_url` is
falsy and `primary_platform_url` truthy, `website_url` is reassigned; when
the (possibly updated) `website_url` is truthy, the first found email/source
pair fills the primary fields and a second pair, if any, fills the backup
fields. -/
def enrich_podcast (findWebsite : PodcastDiscoveryResult → Option Str)
    (findEmails : Str → List EmailEntry)
    (p : PodcastDiscoveryResult) : PodcastDiscoveryResult :=
  let p1 :=
    if !truthyOpt p.website_url && p.primary_platform_url ≠ [] then
      { p with website_url := findWebsite p }
    else p
  match p1.website_url with
  | some w =>
    if w ≠ [] then
      match findEmails w with
      | [] => p1
      | [e] =>
        { p1 with primary_email := some e.email,
                  primary_email_source_url := some e.source }
      | e1 :: e2 :: _ =>
        { p1 with primary_email := some e1.email,
                  primary_email_source_url := some e1.source,
                  backup_email := some e2.email,
                  backup_email_source_url := some e2.source }
    else p1
  | none => p1

/-! ### Concrete instances used in the examples and witnesses -/

/-- Homepage URL of the end-to-end scenario site. -/
def homeUrl : Str := "https://show.com".toList

/-- The end-to-end scenario page: one `Press` mailto anchor for
`press@show.com`, and the free-text regex finding both the href token and
`info@show.com` in the raw HTML. -/
def demoPage : Page :=
  { mailtos := [{ href := "mailto:press@show.com".toList, text := "Press".toList }],
    textEmails := ["press@show.com".toList, "info@show.com".toList] }

/-- The scenario fetcher: only the homepage is fetchable. -/
def demoFetch : Fetch := fun u => if u = homeUrl then some demoPage else none

/-- The expected primary contact of the end-to-end scenario. -/
def pressContact : ContactResult :=
  { email := "press@show.com".toList, source_url := homeUrl,
    contact_type := "booking".toList, confidence := mkRat 9 10 }

/-- The expected backup contact of the end-to-end scenario. -/
def infoContact : ContactResult :=
  { email := "info@show.com".toList, source_url := homeUrl,
    contact_type := "general".toList, confidence := mkRat 6 10 }

/-- A 0.6-confidence observation of `a@b.com` from page `u1`. -/
def lowConf : ContactResult :=
  { email := "a@b.com".toList, source_url := "u1".toList,
    contact_type := "general".toList, confidence := mkRat 6 10 }

/-- A 0.9-confidence observation of the same email from page `u2`. -/
def highConf : ContactResult :=
  { email := "a@b.com".toList, source_url := "u2".toList,
    contact_type := "general".toList, confidence := mkRat 9 10 }

/-- A general-typed candidate with confidence 0.95. -/
def generalC : ContactResult :=
  { email := "g@x.com".toList, source_url := "u1".toList,
    contact_type := "general".toList, confidence := mkRat 95 100 }

/-- A booking-typed candidate with confidence 0.5. -/
def bookingC : ContactResult :=
  { email := "k@x.com".toList, source_url := "u2".toList,
    contact_type := "booking".toList, confidence := mkRat 5 10 }

/-- A second booking-typed candidate with confidence 0.8. -/
def bookingC2 : ContactResult :=
  { email := "b2@x.com".toList, source_url := "u3".toList,
    contact_type := "booking".toList, confidence := mkRat 8 10 }

/-- A discovered podcast before enrichment (all contact fields absent). -/
def demoPodcast : PodcastDiscoveryResult :=
  { show_name := "My Show".toList, host_name := some "Ann".toList,
    primary_platform_url := "https://podcasts.apple.com/us/podcast/id12345".toList,
    website_url := none,
    apple_podcast_url := some "https://podcasts.apple.com/us/podcast/id12345".toList,
    spotify_url := none, show_description := some "A show".toList,
    recent_episode_titles := ["Ep 1".toList], recent_guests := ["Bob".toList],
    primary_email := none, primary_email_source_url := none,
    backup_email := none, backup_email_source_url := none,
    discovery_source := "seed:Bob".toList, risk_signals := [],
    dedupe_key := "apple:12345".toList }

/-- A website resolver for the enrichment example. -/
def demoFindWebsite : PodcastDiscoveryResult → Option Str :=
  fun _ => some "https://myshow.com".toList

/-- An email finder for the enrichment example, returning two entries. -/
def demoFindEmails : Str → List EmailEntry :=
  fun _ => [{ email := "booking@myshow.com".toList,
              source := "https://myshow.com/contact".toList },
            { email := "ann@gmail.com".toList,
              source := "https://myshow.com/about".toList }]

/-! ### Helper lemmas -/

theorem containsSub_cons (x : Char) (rest p : Str) :
    containsSub (x :: rest) p =
      (startsWithL p (x :: rest) || containsSub rest p) := by
  rw [containsSub]

theorem containsSub_append_of_right (a : Str) {b p : Str}
    (h : containsSub b p = true) : containsSub (a ++ b) p = true := by
  induction a with
  | nil => simpa using h
  | cons x xs ih =>
    rw [List.cons_append, containsSub_cons, ih, Bool.or_true]

theorem lowerStr_append (a b : Str) :
    lowerStr (a ++ b) = lowerStr a ++ lowerStr b := List.map_append _ _ _

theorem mem_foldl_mailtoStep {url : Str} :
    ∀ (links : List MailtoLink) (acc : List ContactResult) {c : ContactResult},
      c ∈ links.foldl (mailtoStep url) acc → c ∈ acc ∨ c.source_url = url
  | [], _, _, h => Or.inl h
  | l :: ls, acc, c, h => by
    rcases mem_foldl_mailtoStep ls (mailtoStep url acc l) h with h' | h'
    · unfold mailtoStep at h'
      dsimp only at h'
      split at h'
      · rcases List.mem_append.mp h' with h'' | h''
        · exact Or.inl h''
        · right
          rcases List.mem_singleton.mp h''
          rfl
      · exact Or.inl h'
    · exact Or.inr h'

theorem mem_foldl_textStep {url : Str} :
    ∀ (tokens : List Str) (acc : List ContactResult) {c : ContactResult},
      c ∈ tokens.foldl (textStep url) acc → c ∈ acc ∨ c.source_url = url
  | [], _, _, h => Or.inl h
  | t :: ts, acc, c, h => by
    rcases mem_foldl_textStep ts (textStep url acc t) h with h' | h'
    · unfold textStep at h'
      split at h'
      · rcases List.mem_append.mp h' with h'' | h''
        · exact Or.inl h''
        · right
          rcases List.mem_singleton.mp h''
          rfl
      · exact Or.inl h'
    · exact Or.inr h'

/-- Every candidate produced by a page scrape carries the scraped page's URL
as its source, and comes from a successful fetch. -/
theorem source_of_mem_scrape {fetch : Fetch} {url : Str} {c : ContactResult}
    (h : c ∈ scrape_page_for_emails fetch url) :
    c.source_url = url ∧ (fetch url).isSome := by
  unfold scrape_page_for_emails at h
  match hf : fetch url with
  | none => rw [hf] at h; cases h
  | some page =>
    rw [hf] at h
    refine ⟨?_, rfl⟩
    rcases mem_foldl_textStep page.textEmails _ h with h' | h'
    · rcases mem_foldl_mailtoStep page.mailtos [] h' with h'' | h''
      · cases h''
      · exact h''
    · exact h'

/-- A page scrape consults the fetcher only at the scraped URL. -/
theorem scrape_congr {f g : Fetch} {url : Str} (h : f url = g url) :
    scrape_page_for_emails f url = scrape_page_for_emails g url := by
  unfold scrape_page_for_emails
  rw [h]

/-- Every candidate of a site scan comes from one of the probed page URLs. -/
theorem mem_scan_website {fetch : Fetch} {base : Str} {c : ContactResult}
    (h : c ∈ scan_website fetch base) :
    ∃ p ∈ paths_to_check, c ∈ scrape_page_for_emails fetch (pageUrl base p) := by
  unfold scan_website at h
  rcases List.mem_flatten.mp h with ⟨l, hl, hcl⟩
  rcases List.mem_map.mp hl with ⟨p, hp, rfl⟩
  exact ⟨p, hp, hcl⟩

theorem mem_scan_website_of_mem {fetch : Fetch} {base : Str} {c : ContactResult}
    {p : Str} (hp : p ∈ paths_to_check)
    (h : c ∈ scrape_page_for_emails fetch (pageUrl base p)) :
    c ∈ scan_website fetch base :=
  List.mem_flatten_of_mem (List.mem_map_of_mem _ hp) h

theorem mem_updateSeen : ∀ (acc : List ContactResult) (c : ContactResult)
    {x : ContactResult}, x ∈ updateSeen acc c → x ∈ acc ∨ x = c
  | [], c, x, h => Or.inr (List.mem_singleton.mp h)
  | a :: as, c, x, h => by
    unfold updateSeen at h
    split at h
    · split at h
      · rcases List.mem_cons.mp h with rfl | h2
        · exact Or.inr rfl
        · exact Or.inl (List.mem_cons_of_mem _ h2)
      · exact Or.inl h
    · rcases List.mem_cons.mp h with rfl | h2
      · exact Or.inl (List.mem_cons_self _ _)
      · rcases mem_updateSeen as c h2 with h3 | h3
        · exact Or.inl (List.mem_cons_of_mem _ h3)
        · exact Or.inr h3

theorem mem_foldl_updateSeen : ∀ (l acc : List ContactResult) {x : ContactResult},
    x ∈ l.foldl updateSeen acc → x ∈ acc ∨ x ∈ l
  | [], _, _, h => Or.inl h
  | a :: as, acc, x, h => by
    rcases mem_foldl_updateSeen as (updateSeen acc a) h with h1 | h1
    · rcases mem_updateSeen acc a h1 with h2 | rfl
      · exact Or.inl h2
      · exact Or.inr (List.mem_cons_self _ _)
    · exact Or.inr (List.mem_cons_of_mem _ h1)

theorem emails_updateSeen_of_mem : ∀ (acc : List ContactResult)
    (c : ContactResult), (∃ x ∈ acc, x.email = c.email) →
    (updateSeen acc c).map ContactResult.email = acc.map ContactResult.email
  | [], c, h => absurd h (by simp)
  | a :: as, c, h => by
    unfold updateSeen
    split
    · split
      · next he _ =>
        simp only [List.map_cons]
        rw [he]
      · rfl
    · next hne =>
      rcases h with ⟨x, hx, hxe⟩
      rcases List.mem_cons.mp hx with rfl | hx2
      · exact absurd hxe hne
      · simp only [List.map_cons]
        rw [emails_updateSeen_of_mem as c ⟨x, hx2, hxe⟩]

theorem emails_updateSeen_of_not_mem : ∀ (acc : List ContactResult)
    (c : ContactResult), (∀ x ∈ acc, x.email ≠ c.email) →
    (updateSeen acc c).map ContactResult.email =
      acc.map ContactResult.email ++ [c.email]
  | [], _, _ => rfl
  | a :: as, c, h => by
    unfold updateSeen
    split
    · next he => exact absurd he (h a (List.mem_cons_self _ _))
    · simp only [List.map_cons, List.cons_append]
      rw [emails_updateSeen_of_not_mem as c
          (fun x hx => h x (List.mem_cons_of_mem _ hx))]

theorem nodup_emails_updateSeen (acc : List ContactResult) (c : ContactResult)
    (h : (acc.map ContactResult.email).Nodup) :
    ((updateSeen acc c).map ContactResult.email).Nodup := by
  by_cases hx : ∃ x ∈ acc, x.email = c.email
  · rw [emails_updateSeen_of_mem acc c hx]
    exact h
  · push_neg at hx
    rw [emails_updateSeen_of_not_mem acc c hx]
    rw [List.nodup_append]
    refine ⟨h, List.nodup_singleton _, ?_⟩
    intro e he hce
    rcases List.mem_map.mp he with ⟨x, hxa, rfl⟩
    exact hx x hxa (List.mem_singleton.mp hce)

theorem nodup_emails_foldl : ∀ (l acc : List ContactResult),
    (acc.map ContactResult.email).Nodup →
    ((l.foldl updateSeen acc).map ContactResult.email).Nodup
  | [], _, h => h
  | a :: as, acc, h =>
    nodup_emails_foldl as (updateSeen acc a) (nodup_emails_updateSeen acc a h)

/-- The dedupe step appends a candidate whose email is new. -/
theorem updateSeen_append_new : ∀ (acc : List ContactResult)
    (c : ContactResult), (∀ x ∈ acc, x.email ≠ c.email) →
    updateSeen acc c = acc ++ [c]
  | [], _, _ => rfl
  | a :: as, c, h => by
    unfold updateSeen
    split
    · next he => exact absurd he (h a (List.mem_cons_self _ _))
    · rw [List.cons_append,
        updateSeen_append_new as c (fun x hx => h x (List.mem_cons_of_mem _ hx))]

/-- The dedupe step leaves the kept instance in place (with all its fields)
when the incoming duplicate's confidence is not strictly higher. -/
theorem updateSeen_keep : ∀ (pre : List ContactResult) (x : ContactResult)
    (post : List ContactResult) (c : ContactResult),
    (∀ y ∈ pre, y.email ≠ c.email) → x.email = c.email →
    c.confidence ≤ x.confidence →
    updateSeen (pre ++ x :: post) c = pre ++ x :: post
  | [], x, post, c, _, he, hc => by
    simp only [List.nil_append]
    unfold updateSeen
    rw [if_pos he, if_neg (not_lt.mpr hc)]
  | a :: as, x, post, c, h, he, hc => by
    rw [List.cons_append]
    unfold updateSeen
    rw [if_neg (h a (List.mem_cons_self _ _)), updateSeen_keep as x post c
      (fun y hy => h y (List.mem_cons_of_mem _ hy)) he hc]

/-- The dedupe step replaces the kept instance, in place, exactly when the
incoming duplicate's confidence is strictly higher. -/
theorem updateSeen_replace : ∀ (pre : List ContactResult) (x : ContactResult)
    (post : List ContactResult) (c : ContactResult),
    (∀ y ∈ pre, y.email ≠ c.email) → x.email = c.email →
    x.confidence < c.confidence →
    updateSeen (pre ++ x :: post) c = pre ++ c :: post
  | [], x, post, c, _, he, hc => by
    simp only [List.nil_append]
    unfold updateSeen
    rw [if_pos he, if_pos hc]
  | a :: as, x, post, c, h, he, hc => by
    rw [List.cons_append]
    unfold updateSeen
    rw [if_neg (h a (List.mem_cons_self _ _)), updateSeen_replace as x post c
      (fun y hy => h y (List.mem_cons_of_mem _ hy)) he hc]
    rfl

theorem rankLE_trans : ∀ (a b c : ContactResult),
    rankLE a b → rankLE b c → rankLE a c := by
  intro a b c h1 h2
  simp only [rankLE, Bool.or_eq_true, Bool.and_eq_true, decide_eq_true_eq] at *
  rcases h1 with h1 | ⟨h1e, h1c⟩ <;> rcases h2 with h2 | ⟨h2e, h2c⟩
  · exact Or.inl (Nat.lt_trans h1 h2)
  · exact Or.inl (h2e ▸ h1)
  · exact Or.inl (h1e ▸ h2)
  · exact Or.inr ⟨h1e.trans h2e, h2c.trans h1c⟩

theorem rankLE_total : ∀ (a b : ContactResult), rankLE a b || rankLE b a := by
  intro a b
  simp only [rankLE, Bool.or_eq_true, Bool.and_eq_true, decide_eq_true_eq]
  rcases Nat.lt_trichotomy (type_priority a.contact_type)
      (type_priority b.contact_type) with h | h | h
  · exact Or.inl (Or.inl h)
  · rcases le_total b.confidence a.confidence with hc | hc
    · exact Or.inl (Or.inr ⟨h, hc⟩)
    · exact Or.inr (Or.inr ⟨h.symm, hc⟩)
  · exact Or.inr (Or.inl h)

theorem rank_contacts_pairwise (l : List ContactResult) :
    (rank_contacts l).Pairwise (fun a b => rankLE a b = true) := by
  unfold rank_contacts
  haveI : IsTotal ContactResult (fun a b => rankLE a b = true) :=
    ⟨fun a b => Bool.or_eq_true _ _ ▸ rankLE_total a b⟩
  haveI : IsTrans ContactResult (fun a b => rankLE a b = true) :=
    ⟨rankLE_trans⟩
  exact List.sorted_insertionSort _ (dedupeContacts l)

theorem mem_rank_contacts {l : List ContactResult} {c : ContactResult}
    (h : c ∈ rank_contacts l) : c ∈ l := by
  unfold rank_contacts at h
  have h2 := (List.perm_insertionSort
    (fun a b => rankLE a b = true) (dedupeContacts l)).mem_iff.mp h
  rcases mem_foldl_updateSeen l [] h2 with h1 | h1
  · cases h1
  · exact h1

/-! ### Claim theorems -/

/-- C10: `_check_directories` returns the empty list for every podcast name,
and consequently `find_contacts` with no website URL returns `(None, None)`
for every fetcher and podcast name. -/
theorem directories_empty_no_website_no_contacts :
    (∀ name : Str, check_directories name = []) ∧
    (∀ (fetch : Fetch) (name : Str), find_contacts fetch none name = (none, none)) :=
  ⟨fun _ => rfl, fun _ _ => rfl⟩

/-- C4: on a site whose only fetchable page is the homepage with a `Press`
mailto anchor for `press@show.com` and free text containing `info@show.com`,
`find_contacts` returns primary `press@show.com` (booking, 0.9, homepage
source) and backup `info@show.com` (general, 0.6, homepage source); `info@`
passes the strict validator because the strict deny-list has no `info@`
token. -/
theorem end_to_end_scenario :
    find_contacts demoFetch (some homeUrl) "Demo Show".toList =
      (some pressContact, some infoContact) ∧
    is_valid_email "info@show.com".toList = true ∧
    skip_patterns.contains "info@".toList = false :=
  ⟨by decide, by decide, by decide⟩

/-- C5: the validator rejects `noreply@example.com`, `privacy@site.com`,
`photo.png@cdn.site.com`, and every address ending in `@wixpress.com`;
it accepts `booking@showname.com`, which the classifier marks `booking`. -/
theorem validator_rejection_set :
    is_valid_email "noreply@example.com".toList = false ∧
    is_valid_email "privacy@site.com".toList = false ∧
    is_valid_email "photo.png@cdn.site.com".toList = false ∧
    (∀ loc : Str, is_valid_email (loc ++ "@wixpress.com".toList) = false) ∧
    is_valid_email "booking@showname.com".toList = true ∧
    classify_email "booking@showname.com".toList [] = "booking".toList := by
  refine ⟨by decide, by decide, by decide, ?_, by decide, by decide⟩
  intro loc
  have hw : containsSub (lowerStr (loc ++ "@wixpress.com".toList))
      "wixpress".toList = true := by
    rw [lowerStr_append]
    exact containsSub_append_of_right _ (by decide)
  have hskip : skip_patterns.any
      (fun p => containsSub (lowerStr (loc ++ "@wixpress.com".toList)) p) = true :=
    List.any_eq_true.mpr ⟨"wixpress".toList, by decide, hw⟩
  have hat : (loc ++ "@wixpress.com".toList).contains '@' = true :=
    List.elem_iff.mpr (List.mem_append_right _ (by decide))
  have hne : loc ++ "@wixpress.com".toList ≠ [] := by simp
  simp only [is_valid_email, hskip, hat, decide_eq_false hne]
  simp

/-- C8: `_generate_dedupe_key` applies its rules in strict priority order:
an Apple-style numeric path ID wins, else a Spotify-style opaque path ID,
else a `web:<host>|<normalized name>` key when the URL has a netloc, else
the truncated-hash fallback; a URL matching both ID patterns gets the Apple
key. -/
theorem dedupe_key_priority :
    (∀ (md5hex : Str → Str) (url name i : Str), searchAppleId url = some i →
        generate_dedupe_key md5hex url name = "apple:".toList ++ i) ∧
    (∀ (md5hex : Str → Str) (url name i : Str), searchAppleId url = none →
        searchSpotifyId url = some i →
        generate_dedupe_key md5hex url name = "spotify:".toList ++ i) ∧
    (∀ (md5hex : Str → Str) (url name : Str), searchAppleId url = none →
        searchSpotifyId url = none → urlNetloc url ≠ [] →
        generate_dedupe_key md5hex url name =
          "web:".toList ++ urlNetloc url ++ "|".toList ++ normalizeName name) ∧
    (∀ (md5hex : Str → Str) (url name : Str), searchAppleId url = none →
        searchSpotifyId url = none → urlNetloc url = [] →
        generate_dedupe_key md5hex url name =
          "hash:".toList ++ (md5hex (url ++ name)).take 12) ∧
    (∀ md5hex : Str → Str,
        generate_dedupe_key md5hex
          "https://open.spotify.com/show/abc123/id99".toList "My Show".toList =
          "apple:99".toList) := by
  refine ⟨?_, ?_, ?_, ?_, fun md5hex => rfl⟩
  · intro md5hex url name i h
    unfold generate_dedupe_key
    rw [h]
  · intro md5hex url name i h1 h2
    unfold generate_dedupe_key
    rw [h1, h2]
  · intro md5hex url name h1 h2 h3
    unfold generate_dedupe_key
    rw [h1, h2, if_pos h3]
  · intro md5hex url name h1 h2 h3
    unfold generate_dedupe_key
    rw [h1, h2, if_neg (by simp [h3])]

/-- Witness for C8: the web-key branch at a concrete URL and name. -/
theorem dedupe_key_priority_witness :
    generate_dedupe_key (fun s => s) "https://example.net/feed".toList
      "My Show! 99".toList = "web:example.net|myshow99".toList :=
  (dedupe_key_priority.2.2.1 (fun s => s) "https://example.net/feed".toList
      "My Show! 99".toList (by decide) (by decide) (by decide)).trans (by decide)

/-- C2: the dedupe step keeps exactly one instance per email (output emails
are pairwise distinct and every kept instance is an input instance); a new
email is appended, a duplicate replaces the kept instance only when its
confidence is strictly higher (so equal-confidence duplicates keep the
first-encountered instance with all its fields); two same-email candidates
with confidences 0.6 and 0.9 rank to the 0.9 one with its original
`source_url`. -/
theorem rank_dedupe_correct :
    (∀ l : List ContactResult,
       ((dedupeContacts l).map ContactResult.email).Nodup ∧
       ∀ c ∈ dedupeContacts l, c ∈ l) ∧
    (∀ (acc : List ContactResult) (c : ContactResult),
       (∀ x ∈ acc, x.email ≠ c.email) → updateSeen acc c = acc ++ [c]) ∧
    (∀ (pre : List ContactResult) (x : ContactResult)
       (post : List ContactResult) (c : ContactResult),
       (∀ y ∈ pre, y.email ≠ c.email) → x.email = c.email →
       (c.confidence ≤ x.confidence →
          updateSeen (pre ++ x :: post) c = pre ++ x :: post) ∧
       (x.confidence < c.confidence →
          updateSeen (pre ++ x :: post) c = pre ++ c :: post)) ∧
    rank_contacts [lowConf, highConf] = [highConf] := by
  refine ⟨?_, updateSeen_append_new, ?_, by decide⟩
  · intro l
    refine ⟨nodup_emails_foldl l [] (by simp), fun c hc => ?_⟩
    exact (mem_foldl_updateSeen l [] hc).resolve_left (List.not_mem_nil c)
  · intro pre x post c h he
    exact ⟨updateSeen_keep pre x post c h he, updateSeen_replace pre x post c h he⟩

/-- Witness for C2: a strictly higher-confidence duplicate replaces the kept
instance, while an equal-or-lower one leaves the first-encountered instance
in place. -/
theorem rank_dedupe_correct_witness :
    updateSeen [lowConf] highConf = [highConf] ∧
    updateSeen [highConf] lowConf = [highConf] :=
  ⟨(rank_dedupe_correct.2.2.1 [] lowConf [] highConf (by decide) (by decide)).2
      (by decide),
   (rank_dedupe_correct.2.2.1 [] highConf [] lowConf (by decide) (by decide)).1
      (by decide)⟩

/-- The `type_priority` map sends only `booking` to 0. -/
theorem type_priority_eq_zero {t : Str} (h : type_priority t = 0) :
    t = "booking".toList := by
  unfold type_priority at h
  split at h
  · assumption
  · split at h
    · omega
    · split at h
      · omega
      · split at h <;> omega

/-- C3: the ranked output is totally ordered ascending by the key
`(type_priority, -confidence)` (pairwise `rankLE`); consequently everything
preceding a booking-typed entry is booking-typed, so a booking candidate
always precedes a general one regardless of confidence; concretely,
booking/0.5 ranks before general/0.95. -/
theorem rank_total_order :
    (∀ l : List ContactResult,
       (rank_contacts l).Pairwise (fun a b => rankLE a b = true)) ∧
    (∀ (l : List ContactResult) (i j : Fin (rank_contacts l).length),
       i < j → ((rank_contacts l).get j).contact_type = "booking".toList →
       ((rank_contacts l).get i).contact_type = "booking".toList) ∧
    rank_contacts [generalC, bookingC] = [bookingC, generalC] := by
  refine ⟨rank_contacts_pairwise, ?_, by decide⟩
  intro l i j hij hj
  have hp := List.pairwise_iff_get.mp (rank_contacts_pairwise l) i j hij
  unfold rankLE at hp
  simp only [Bool.or_eq_true, Bool.and_eq_true, decide_eq_true_eq] at hp
  rw [hj] at hp
  have h0 : type_priority "booking".toList = 0 := by decide
  rcases hp with hp | ⟨hpe, _⟩
  · rw [h0] at hp
    exact absurd hp (Nat.not_lt_zero _)
  · exact type_priority_eq_zero (by rw [hpe, h0])

/-- Witness for C3: in the ranked output of a mixed list, the entry before a
booking-typed entry is booking-typed. -/
theorem rank_total_order_witness :
    ((rank_contacts [generalC, bookingC, bookingC2]).get
        ⟨0, by decide⟩).contact_type = "booking".toList :=
  rank_total_order.2.1 [generalC, bookingC, bookingC2]
    ⟨0, by decide⟩ ⟨1, by decide⟩ (by decide) (by decide)

/-- C6: the classifier always returns exactly one of booking, host,
producer, general, by first-match priority (booking keywords over webmail
domains over producer keywords over the general fallback); in particular
`jane@gmail.com` with context `Booking inquiries` classifies as booking. -/
theorem classifier_precedence :
    (∀ email context : Str,
       classify_email email context = "booking".toList ∨
       classify_email email context = "host".toList ∨
       classify_email email context = "producer".toList ∨
       classify_email email context = "general".toList) ∧
    (∀ email context : Str, bookingCond (combinedOf email context) = true →
       classify_email email context = "booking".toList) ∧
    (∀ email context : Str, bookingCond (combinedOf email context) = false →
       hostCond email = true → classify_email email context = "host".toList) ∧
    (∀ email context : Str, bookingCond (combinedOf email context) = false →
       hostCond email = false → producerCond (combinedOf email context) = true →
       classify_email email context = "producer".toList) ∧
    (∀ email context : Str, bookingCond (combinedOf email context) = false →
       hostCond email = false → producerCond (combinedOf email context) = false →
       classify_email email context = "general".toList) ∧
    classify_email "jane@gmail.com".toList "Booking inquiries".toList =
      "booking".toList := by
  refine ⟨?_, ?_, ?_, ?_, ?_, by decide⟩
  · intro e c
    cases hb : bookingCond (combinedOf e c) <;>
      cases hh : hostCond e <;>
        cases hp : producerCond (combinedOf e c) <;>
          simp [classify_email, hb, hh, hp]
  · intro e c hb
    simp [classify_email, hb]
  · intro e c hb hh
    simp [classify_email, hb, hh]
  · intro e c hb hh hp
    simp [classify_email, hb, hh, hp]
  · intro e c hb hh hp
    simp [classify_email, hb, hh, hp]

/-- Witness for C6: the booking branch and the host branch at concrete
inputs. -/
theorem classifier_precedence_witness :
    classify_email "jane@gmail.com".toList "Booking inquiries".toList =
      "booking".toList ∧
    classify_email "jane@gmail.com".toList [] = "host".toList :=
  ⟨classifier_precedence.2.1 "jane@gmail.com".toList
      "Booking inquiries".toList (by decide),
   classifier_precedence.2.2.1 "jane@gmail.com".toList [] (by decide)
      (by decide)⟩

/-- C7: `_scrape_page_for_emails` is total (it cannot raise in the model)
and a failed fetch yields the empty candidate list; and a fetcher that fails
on one URL leaves every other probed page's candidates in the site scan. -/
theorem page_failure_isolation :
    (∀ (fetch : Fetch) (url : Str), fetch url = none →
        scrape_page_for_emails fetch url = []) ∧
    (∀ (g : Fetch) (base badUrl p : Str), p ∈ paths_to_check →
        pageUrl base p ≠ badUrl →
        ∀ c ∈ scrape_page_for_emails g (pageUrl base p),
          c ∈ scan_website (fun u => if u = badUrl then none else g u) base) := by
  constructor
  · intro fetch url h
    unfold scrape_page_for_emails
    rw [h]
  · intro g base badUrl p hp hne c hc
    have hco : scrape_page_for_emails
        (fun u => if u = badUrl then none else g u) (pageUrl base p) =
        scrape_page_for_emails g (pageUrl base p) :=
      scrape_congr (by rw [if_neg hne])
    exact mem_scan_website_of_mem hp (hco ▸ hc)

/-- Witness for C7: with the contact page knocked out, the homepage
candidate still appears in the scan of the scenario site. -/
theorem page_failure_isolation_witness :
    pressContact ∈ scan_website
      (fun u => if u = "https://show.com/contact".toList then none
                else demoFetch u) homeUrl :=
  page_failure_isolation.2 demoFetch homeUrl
    "https://show.com/contact".toList "".toList (by decide) (by decide)
    pressContact (by decide)

/-- C1: every candidate built by a page scrape carries the scraped page's
exact URL as `source_url` and stems from a successful fetch; every candidate
of a site scan sourced one of the actually probed page URLs; and every
primary/backup slot of `find_contacts` does too, with a non-empty source
whenever successfully fetched URLs are non-empty. -/
theorem contact_source_invariant :
    (∀ (fetch : Fetch) (url : Str) (c : ContactResult),
        c ∈ scrape_page_for_emails fetch url →
        c.source_url = url ∧ (fetch url).isSome) ∧
    (∀ (fetch : Fetch) (base : Str) (c : ContactResult),
        c ∈ scan_website fetch base →
        (fetch c.source_url).isSome ∧
        ∃ p ∈ paths_to_check, c.source_url = pageUrl base p) ∧
    (∀ (fetch : Fetch) (w name : Str) (c : ContactResult),
        (find_contacts fetch (some w) name).1 = some c ∨
        (find_contacts fetch (some w) name).2 = some c →
        ((fetch c.source_url).isSome ∧
         ∃ p ∈ paths_to_check, c.source_url = pageUrl w p) ∧
        ((∀ u : Str, (fetch u).isSome → u ≠ []) → c.source_url ≠ [])) := by
  have scan : ∀ (fetch : Fetch) (base : Str) (c : ContactResult),
      c ∈ scan_website fetch base →
      (fetch c.source_url).isSome ∧
      ∃ p ∈ paths_to_check, c.source_url = pageUrl base p := by
    intro fetch base c h
    rcases mem_scan_website h with ⟨p, hp, hcp⟩
    obtain ⟨heq, hsome⟩ := source_of_mem_scrape hcp
    exact ⟨heq ▸ hsome, ⟨p, hp, heq⟩⟩
  refine ⟨fun fetch url c h => source_of_mem_scrape h, scan, ?_⟩
  intro fetch w name c hc
  have hmem : c ∈ rank_contacts
      ((if w ≠ [] then scan_website fetch w else []) ++
        check_directories name) := by
    rcases hc with hc | hc
    · exact List.getElem?_mem hc
    · exact List.getElem?_mem hc
  have hscan : c ∈ scan_website fetch w := by
    rcases List.mem_append.mp (mem_rank_contacts hmem) with h1 | h1
    · by_cases hw : w ≠ []
      · rwa [if_pos hw] at h1
      · rw [if_neg hw] at h1
        cases h1
    · cases h1
  have hmain := scan fetch w c hscan
  exact ⟨hmain, fun hne => hne c.source_url hmain.1⟩

/-- Witness for C1: the primary slot of the scenario run sources the
homepage, a successfully fetched probed URL. -/
theorem contact_source_invariant_witness :
    (demoFetch pressContact.source_url).isSome ∧
    ∃ p ∈ paths_to_check, pressContact.source_url = pageUrl homeUrl p :=
  (contact_source_invariant.2.2 demoFetch homeUrl "Demo Show".toList
    pressContact (Or.inl (by decide))).1

/-- C9: `enrich_podcast` leaves every field other than `website_url` and the
four email/source fields unchanged, and it preserves the invariant that each
email/source pair is both-present or both-absent. -/
theorem enrich_frame_and_pairing :
    ∀ (findWebsite : PodcastDiscoveryResult → Option Str)
      (findEmails : Str → List EmailEntry) (p : PodcastDiscoveryResult),
      ((enrich_podcast findWebsite findEmails p).show_name = p.show_name ∧
       (enrich_podcast findWebsite findEmails p).host_name = p.host_name ∧
       (enrich_podcast findWebsite findEmails p).primary_platform_url =
         p.primary_platform_url ∧
       (enrich_podcast findWebsite findEmails p).apple_podcast_url =
         p.apple_podcast_url ∧
       (enrich_podcast findWebsite findEmails p).spotify_url = p.spotify_url ∧
       (enrich_podcast findWebsite findEmails p).show_description =
         p.show_description ∧
       (enrich_podcast findWebsite findEmails p).recent_episode_titles =
         p.recent_episode_titles ∧
       (enrich_podcast findWebsite findEmails p).recent_guests =
         p.recent_guests ∧
       (enrich_podcast findWebsite findEmails p).discovery_source =
         p.discovery_source ∧
       (enrich_podcast findWebsite findEmails p).risk_signals =
         p.risk_signals ∧
       (enrich_podcast findWebsite findEmails p).dedupe_key = p.dedupe_key) ∧
      ((p.primary_email.isSome ↔ p.primary_email_source_url.isSome) →
       (p.backup_email.isSome ↔ p.backup_email_source_url.isSome) →
       (((enrich_podcast findWebsite findEmails p).primary_email.isSome ↔
         (enrich_podcast findWebsite findEmails p).primary_email_source_url.isSome) ∧
        ((enrich_podcast findWebsite findEmails p).backup_email.isSome ↔
         (enrich_podcast findWebsite findEmails p).backup_email_source_url.isSome))) := by
  intro fw fe p
  unfold enrich_podcast
  dsimp only
  repeat' split
  all_goals simp
  all_goals tauto

/-- Witness for C9: after enriching a podcast with two found emails, both
pairs are present together. -/
theorem enrich_frame_and_pairing_witness :
    ((enrich_podcast demoFindWebsite demoFindEmails demoPodcast).primary_email.isSome ↔
      (enrich_podcast demoFindWebsite demoFindEmails demoPodcast).primary_email_source_url.isSome) ∧
    ((enrich_podcast demoFindWebsite demoFindEmails demoPodcast).backup_email.isSome ↔
      (enrich_podcast demoFindWebsite demoFindEmails demoPodcast).backup_email_source_url.isSome) :=
  (enrich_frame_and_pairing demoFindWebsite demoFindEmails demoPodcast).2
    (by decide) (by decide)

end Podcast
